import Mathlib

/-!
Verification development for the `cmdata` repository.

This file gives a shallow embedding of the parts of `cmdata` relevant to the
frozen claims:

* `src/cmdata/datadesc/helpers.py`   — `substitute_var` (variable substitution
  in strings, default pattern `${path}` with `/`-separated path segments);
* `src/cmdata/datadesc/yamlfuncs.py` — `resolve_variables` (iterated
  whole-tree substitution passes with an iteration bound);
* `src/cmdata/labels/labelmapping.py` — `LabelMap.__init__`,
  `LabelMap.from_yaml`, `LabelMap.map_pd`, `LabelMap.map_pd_index`;
* `src/cmdata/dataproc/data_loading.py` — `PandasDataLoader.process_raw_df`;
* `src/cmdata/dataproc/configparsers.py` — `ConfigParserListMixin.getlist`.

Python values that can appear in a parsed YAML configuration tree are
modelled by the inductive type `Yaml` (strings, non-string scalars modelled
by `int`, ordered mappings with string keys, and sequences).  Python
exceptions are modelled by explicit error values in `Except`.
-/

namespace Cmdata

/-- A parsed YAML data structure: strings, non-string scalars (represented by
integers), ordered mappings with string keys, and sequences.  Mirrors
`_YamlDataType` in `src/cmdata/datadesc/yamlfuncs.py`. -/
inductive Yaml where
  | str : String → Yaml
  | int : Int → Yaml
  | map : List (String × Yaml) → Yaml
  | seq : List Yaml → Yaml
deriving Repr

instance {ε α : Type} [DecidableEq ε] [DecidableEq α] : DecidableEq (Except ε α)
  | .ok a, .ok b =>
    if h : a = b then .isTrue (by rw [h]) else .isFalse (fun c => by cases c; exact h rfl)
  | .ok _, .error _ => .isFalse (fun c => by cases c)
  | .error _, .ok _ => .isFalse (fun c => by cases c)
  | .error e, .error f =>
    if h : e = f then .isTrue (by rw [h]) else .isFalse (fun c => by cases c; exact h rfl)

/-- Python exceptions that the substitution helpers can raise:
`KeyError`/`IndexError` from a failed subscript on a mapping, and `TypeError`
from subscripting a sequence/scalar with a string or from `re.sub` receiving a
non-`str` replacement value. -/
inductive SubstErr where
  | keyError : SubstErr
  | typeError : SubstErr
deriving Repr, DecidableEq

/-- Association-list lookup for mapping nodes (Python `dict.__getitem__`). -/
def lookupKey : List (String × Yaml) → String → Option Yaml
  | [], _ => none
  | (k, v) :: rest, key => if k = key then some v else lookupKey rest key

/-- Split a character list on a separator character (Python `str.split(sep)`
for a one-character separator): `""` yields `[""]`, and empty segments are
kept. -/
def splitSeps (sep : Char) : List Char → List (List Char)
  | [] => [[]]
  | c :: rest =>
    match splitSeps sep rest with
    | [] => [[c]]
    | g :: gs => if c = sep then [] :: g :: gs else (c :: g) :: gs

/-- The path walk of `substitute_var.get_subst`
(`src/cmdata/datadesc/helpers.py` lines 134-141): each `/`-separated segment
is used, as the *string* it is, as a subscript into the container found at
that point (`_subs = _subs[index]`).  A missing mapping key raises `KeyError`;
subscripting a sequence, string or scalar with a string raises `TypeError`
(the code performs no coercion of segments to integer indices). -/
def walkPath : Yaml → List (List Char) → Except SubstErr Yaml
  | y, [] => .ok y
  | y, seg :: rest =>
    match y with
    | .map es =>
      match lookupKey es (String.mk seg) with
      | some v => walkPath v rest
      | none => .error .keyError
    | .seq _ => .error .typeError
    | .str _ => .error .typeError
    | .int _ => .error .typeError

/-- The replacement value produced by `get_subst` for a matched group: the
result of the path walk, handed back to `re.Pattern.sub`.  `re.sub` requires
the replacement to be a `str`; a non-string looked-up value raises
`TypeError` (the code does not convert the value to its string form). -/
def getSubstReplacement (root : Yaml) (grp : List Char) : Except SubstErr (List Char) := do
  let v ← walkPath root (splitSeps '/' grp)
  match v with
  | .str s => .ok s.data
  | _ => .error .typeError

/-- Index (from the start) of the last `'}'` in a character list, if any. -/
def lastCloseBrace (cs : List Char) : Option Nat :=
  match cs with
  | [] => none
  | c :: rest =>
    match lastCloseBrace rest with
    | some j => some (j + 1)
    | none => if c = '}' then some 0 else none

/-- Matching of the default variable pattern `\$\{(.+)\}` at a position right
after an initial `"${"`: `.` does not match a newline, and `(.+)` is greedy,
so the group extends to the *last* `'}'` of the current line and must be
non-empty.  Returns the matched group and the characters after the closing
brace, or `none` if the pattern does not match here. -/
def matchVarGroup (rest : List Char) : Option (List Char × List Char) :=
  let line := rest.takeWhile (fun c => c ≠ '\n')
  match lastCloseBrace line with
  | some j => if 1 ≤ j then some (line.take j, rest.drop (j + 1)) else none
  | none => none

/-- The scan of `re.Pattern.sub` over the text with the default pattern
`\$\{(.+)\}`: at each position, if the pattern matches, the *entire* match is
replaced by the replacement for its group and scanning resumes after the
match; otherwise the character is kept.  Errors from the replacement function
propagate. -/
def substScan (repl : List Char → Except SubstErr (List Char)) :
    List Char → Except SubstErr (List Char)
  | [] => .ok []
  | '$' :: '{' :: rest =>
    match h : matchVarGroup rest with
    | some (grp, after) => do
      let r ← repl grp
      let tail ← substScan repl after
      .ok (r ++ tail)
    | none => do
      let tail ← substScan repl ('{' :: rest)
      .ok ('$' :: tail)
  | c :: rest => do
    let tail ← substScan repl rest
    .ok (c :: tail)
  termination_by cs => cs.length
  decreasing_by
    · have hle : after.length ≤ rest.length := by
        simp only [matchVarGroup] at h
        split at h
        · split at h
          · cases h
            simp only [List.length_drop]
            omega
          · cases h
        · cases h
      simp only [List.length_cons]
      omega
    · simp
    · simp

/-- `substitute_var(text, substitute_data)` from
`src/cmdata/datadesc/helpers.py` with default `var_pattern` and `separator`:
`var_pattern.sub(get_subst, text)`. -/
def substituteVar (text : String) (root : Yaml) : Except SubstErr String := do
  let cs ← substScan (getSubstReplacement root) text.data
  .ok (String.mk cs)

/-!
## `resolve_variables` (`src/cmdata/datadesc/yamlfuncs.py`)

`resolve_variables` deep-copies `data` (unless `inplace`), then repeatedly
runs `crawl_through_data(data, data)` until a pass reports no substitutions,
raising `VarResolutionError` once the number of completed passes exceeds
`max_iterations`.

`crawl_through_data(curr_data, orig_data)` mutates `curr_data` in place while
looking paths up in `orig_data` — and both alias (parts of) the same object,
so a lookup during a pass sees the substitutions already made earlier in that
same pass.  The embedding makes this aliasing explicit: the walk over a
container carries a context function `ctx` that plugs the container's current
contents back into the whole tree, so `ctx (… current contents …)` is exactly
the state of `orig_data` at that moment.

`crawl_through_data` returns `made_substitutions`; a string entry ors the
flag (`if new_str != curr_data[_i]: made_substitutions = True`), while a
container entry *reassigns* it to the recursive call's result
(`made_substitutions = crawl_through_data(curr_data[_i], orig_data)`,
lines 86-87) — the embedding reproduces that reassignment literally.

Non-string scalar entries make `crawl_through_data` recurse into a value
with neither `keys` nor `len`, so `range(0, len(curr_data))` raises
`TypeError`.  A (never&#x2d;reached from `resolve_variables`) call on a string
either does nothing (empty string) or raises `TypeError` at the item
assignment `curr_data[_i] = new_str`.
-/

mutual

/-- `crawl_through_data` restricted to one container (`curr_data`), with
`ctx` plugging the container back into the root (`orig_data`). -/
def crawlCont (ctx : Yaml → Yaml) : Yaml → Yaml × Bool × Option SubstErr
  | .map es =>
    match crawlMapEntries ctx [] es false with
    | (es', made, err) => (.map es', made, err)
  | .seq xs =>
    match crawlSeqItems ctx [] xs false with
    | (xs', made, err) => (.seq xs', made, err)
  | .str s =>
    match s.data with
    | [] => (.str s, false, none)
    | c :: _ =>
      match substituteVar (String.mk [c]) (ctx (.str s)) with
      | .error e => (.str s, false, some e)
      | .ok _ => (.str s, false, some .typeError)
  | .int n => (.int n, false, some .typeError)

/-- The `for _i in indexes` loop over a mapping's entries: `done` holds the
already-visited entries (with their new values), `todo` the rest. -/
def crawlMapEntries (ctx : Yaml → Yaml) (done : List (String × Yaml)) :
    List (String × Yaml) → Bool → List (String × Yaml) × Bool × Option SubstErr
  | [], made => (done, made, none)
  | (k, v) :: todo, made =>
    match v with
    | .str s =>
      match substituteVar s (ctx (.map (done ++ (k, v) :: todo))) with
      | .ok s' => crawlMapEntries ctx (done ++ [(k, .str s')]) todo (made || (s' != s))
      | .error e => (done ++ (k, v) :: todo, made, some e)
    | v =>
      match crawlCont (fun y => ctx (.map (done ++ (k, y) :: todo))) v with
      | (v', subMade, none) => crawlMapEntries ctx (done ++ [(k, v')]) todo subMade
      | (v', subMade, some e) => (done ++ (k, v') :: todo, subMade, some e)

/-- The `for _i in indexes` loop over a sequence's items. -/
def crawlSeqItems (ctx : Yaml → Yaml) (done : List Yaml) :
    List Yaml → Bool → List Yaml × Bool × Option SubstErr
  | [], made => (done, made, none)
  | v :: todo, made =>
    match v with
    | .str s =>
      match substituteVar s (ctx (.seq (done ++ v :: todo))) with
      | .ok s' => crawlSeqItems ctx (done ++ [.str s']) todo (made || (s' != s))
      | .error e => (done ++ v :: todo, made, some e)
    | v =>
      match crawlCont (fun y => ctx (.seq (done ++ y :: todo))) v with
      | (v', subMade, none) => crawlSeqItems ctx (done ++ [v']) todo subMade
      | (v', subMade, some e) => (done ++ v' :: todo, subMade, some e)

end

/-- One whole-tree pass: `crawl_through_data(data, data)`.  Returns the tree
after the pass's in-place mutations, the `made_substitutions` flag, and the
exception (if one was raised part-way through). -/
def crawlPass (root : Yaml) : Yaml × Bool × Option SubstErr :=
  crawlCont id root

/-- Errors raised by `resolve_variables`: an exception propagating out of the
substitution machinery, or `VarResolutionError` when the iteration budget is
exhausted. -/
inductive ResolveErr where
  | subst : SubstErr → ResolveErr
  | varResolution : ResolveErr
deriving Repr, DecidableEq

/-- The `while crawl_through_data(data, data):` loop of `resolve_variables`
(lines 93-101): run passes until one reports no substitutions; after each
reporting pass increment `_num_iterations` and raise `VarResolutionError`
when it exceeds `max_iterations`.  `fuel` is the remaining budget
(initially `max_iterations`).  Besides the `Except` result, the final state
of the crawled tree object is returned. -/
def resolveLoop (fuel : Nat) (root : Yaml) : Except ResolveErr Yaml × Yaml :=
  match crawlPass root with
  | (root', _, some e) => (.error (.subst e), root')
  | (root', made, none) =>
    if made then
      match fuel with
      | 0 => (.error .varResolution, root')
      | fuel' + 1 => resolveLoop fuel' root'
    else (.ok root', root')

mutual

/-- Structural clone of a tree: `copy.deepcopy(data)`. -/
def deepcopy : Yaml → Yaml
  | .str s => .str s
  | .int n => .int n
  | .map es => .map (deepcopyEntries es)
  | .seq xs => .seq (deepcopyItems xs)

/-- `copy.deepcopy` on a mapping's entry list. -/
def deepcopyEntries : List (String × Yaml) → List (String × Yaml)
  | [] => []
  | (k, v) :: rest => (k, deepcopy v) :: deepcopyEntries rest

/-- `copy.deepcopy` on a sequence's item list. -/
def deepcopyItems : List Yaml → List Yaml
  | [] => []
  | v :: rest => deepcopy v :: deepcopyItems rest

end

/-- The default `max_iterations` of `resolve_variables`. -/
def defaultMaxIterations : Nat := 20

/-- `resolve_variables(data, max_iterations=maxIterations, inplace=inplace)`
with the default `subst_func` (`substitute_var`).  The first component is the
call's result (value returned or exception raised); the second is the state
of the *caller's* tree object after the call: when `inplace` is false all
mutation happens on the deep copy, so the caller's object keeps its original
value, and a plain string is immutable in Python so it is never mutated. -/
def resolveVariablesFull (data : Yaml) (maxIterations : Nat) (inplace : Bool) :
    Except ResolveErr Yaml × Yaml :=
  let work := if inplace then data else deepcopy data
  match work with
  | .str s =>
    (match substituteVar s (.str s) with
     | .ok s' => .ok (.str s')
     | .error e => .error (.subst e), data)
  | w =>
    let r := resolveLoop maxIterations w
    (r.1, if inplace then r.2 else data)

/-- `resolve_variables` with the default `inplace=False`, result only. -/
def resolveVariables (data : Yaml) (maxIterations : Nat) : Except ResolveErr Yaml :=
  (resolveVariablesFull data maxIterations false).1

/-!
## `LabelMap` (`src/cmdata/labels/labelmapping.py`)

The internal `pandas.DataFrame` of a `LabelMap` is modelled as a code index
plus named value columns.  Cell/label values are modelled by `PdVal`
(strings, integers — e.g. the positional labels of a `RangeIndex` — and the
missing marker `NA`/`NaN`).  The `'category'` dtypes used by `__init__` only
affect memory layout, not lookup results, and are not modelled.

Pandas behaviours that the mapped code relies on:
* `DataFrame.reset_index()` moves the index into a column and installs a
  positional `RangeIndex` `0..n-1`;
* `Series.map(mapper)` with a `Series` mapper looks each value up among the
  *mapper's index labels* (missing → `NaN`, `NaN` → `NaN`), and raises
  `InvalidIndexError` if the mapper's index is not unique;
* `Series.map` with a `DataFrame` argument raises (`pd.Series` of a
  DataFrame is not 1-dimensional);
* `Series.iloc[:, 0]` raises `pandas.errors.IndexingError` (`"Too many
  indexers"`); `DataFrame.iloc[:, 0]` selects the first column as a Series.
-/

/-- A pandas cell or axis-label value: a string, an integer (e.g. a
positional `RangeIndex` label), or the missing marker (`NaN`/`NA`). -/
inductive PdVal where
  | s : String → PdVal
  | i : Int → PdVal
  | na : PdVal
deriving Repr, DecidableEq

/-- `pandas.isna` on a single value. -/
def PdVal.isNA : PdVal → Bool
  | .na => true
  | _ => false

/-- Pandas exceptions the mapped code can raise. -/
inductive PdErr where
  | keyError : PdErr
  | indexingError : PdErr
  | valueError : PdErr
  | invalidIndexError : PdErr
  | typeError : PdErr
deriving Repr, DecidableEq

/-- The internal table of a `LabelMap`: the code index (`_df.index`, named
`_code_col_name`) and the value columns in order. -/
structure LabelMapM where
  codeColName : String
  index : List PdVal
  cols : List (String × List PdVal)
deriving Repr, DecidableEq

/-- Association-list lookup among a record's cells. -/
def lookupCell : List (String × PdVal) → String → Option PdVal
  | [], _ => none
  | (k, v) :: rest, key => if k = key then some v else lookupCell rest key

/-- Column names of `pandas.DataFrame.from_dict(…, orient='index')`: the
union of the records' keys in first-appearance order. -/
def collectColumns (rows : List (String × List (String × PdVal))) : List String :=
  rows.foldl
    (fun acc r => acc ++ (r.2.map Prod.fst).filter (fun c => !(acc.contains c)))
    []

/-- `LabelMap.__init__(defdict, orient='index')` for a dictionary keyed by
code: `pandas.DataFrame.from_dict(defdict, orient='index')` makes the keys
the index rows and the record fields the columns (missing cells become
`NaN`), and the index is named by `code_col_name` (default `'code'`). -/
def labelMapFromDictByCode (defdict : List (String × List (String × PdVal))) :
    LabelMapM :=
  let colNames := collectColumns defdict
  { codeColName := "code"
    index := defdict.map (fun r => PdVal.s r.1)
    cols := colNames.map
      (fun c => (c, defdict.map (fun r => (lookupCell r.2 c).getD .na))) }

/-- `mapping_df[c]`: column selection, `KeyError` when absent. -/
def getCol (lm : LabelMapM) (c : String) : Except PdErr (List PdVal) :=
  match lm.cols.find? (fun p => p.1 = c) with
  | some p => .ok p.2
  | none => .error .keyError

/-- The `mapper` object built by `map_pd`: either a `pandas.Series` or a
one-column `pandas.DataFrame`, both represented by their index labels
(lookup keys) and their values. -/
inductive Mapper where
  | series : List PdVal → List PdVal → Mapper
  | oneColDf : List PdVal → List PdVal → Mapper
deriving Repr, DecidableEq

/-- Zip-association lookup (a value at the mapper-index position of `x`). -/
def assocZip : List PdVal → List PdVal → PdVal → Option PdVal
  | k :: ks, v :: vs, x => if k = x then some v else assocZip ks vs x
  | _, _, _ => none

/-- `pdobj.map(mapper)` for a `Series` mapper with index `keys` and values
`vals`: each input value is looked up among `keys` (`NaN` and unmatched
values map to `NaN` — the vocabulary tables here have no `NaN` mapper
keys, so a `NaN` input never matches); a non-unique mapper index raises
`InvalidIndexError`. -/
def seriesMap (keys vals pdobj : List PdVal) : Except PdErr (List PdVal) :=
  if keys.Nodup then
    .ok (pdobj.map (fun x => if x.isNA then .na else (assocZip keys vals x).getD .na))
  else .error .invalidIndexError

/-- The positional `RangeIndex` labels `0..n-1` installed by
`reset_index()`. -/
def rangeIndex (n : Nat) : List PdVal :=
  (List.range n).map (fun k => PdVal.i k)

/-- `LabelMap.map_pd(pdobj, map_from, map_to, raise_on_missing)`
(`src/cmdata/labels/labelmapping.py` lines 244-302).  The four mapper
branches follow the source:

* `map_from` and `map_to` both index aliases:
  `pd.Series(data=mapping_df.index, index=mapping_df.index)` — a Series;
* `map_from` an index alias only: `mapping_df.reset_index()[map_to]` — a
  Series whose index is the positional `RangeIndex` left by `reset_index`,
  *not* the codes;
* `map_to` an index alias only:
  `mapping_df[map_from].reset_index().set_index(map_from)` — a one-column
  DataFrame mapping the `map_from` column's values to the codes;
* neither: `mapping_df[[map_to, map_from]].set_index(map_from)` — a
  one-column DataFrame.

With `raise_on_missing=False` the mapper is used as is
(`pdobj.map(mapper)` raises for a DataFrame mapper); with the default
`raise_on_missing=True` the code applies `mapper.iloc[:, 0]` (raising
`IndexingError` when the mapper is a Series), maps, and raises `KeyError`
iff the mapped values' `isna` mask differs from the input's. -/
def mapPd (lm : LabelMapM) (pdobj : List PdVal) (mapFrom mapTo : String)
    (raiseOnMissing : Bool) : Except PdErr (List PdVal) := do
  let indexAliases : List String := ["index", lm.codeColName]
  let mapperE : Except PdErr Mapper :=
    if mapFrom ∈ indexAliases then
      if mapTo ∈ indexAliases then
        .ok (.series lm.index lm.index)
      else do
        let col ← getCol lm mapTo
        .ok (.series (rangeIndex lm.index.length) col)
    else if mapTo ∈ indexAliases then do
      let col ← getCol lm mapFrom
      .ok (.oneColDf col lm.index)
    else do
      let colTo ← getCol lm mapTo
      let colFrom ← getCol lm mapFrom
      .ok (.oneColDf colFrom colTo)
  let mapper ← mapperE
  if !raiseOnMissing then
    match mapper with
    | .series keys vals => seriesMap keys vals pdobj
    | .oneColDf _ _ => .error .valueError
  else
    match mapper with
    | .series _ _ => .error .indexingError
    | .oneColDf keys vals => do
      let naLocs := pdobj.map PdVal.isNA
      let mapped ← seriesMap keys vals pdobj
      if mapped.map PdVal.isNA ≠ naLocs then .error .keyError
      else .ok mapped

/-- A pandas `Series` (or single-axis view of a DataFrame): axis labels plus
values. -/
structure PdFrame where
  index : List PdVal
  values : List PdVal
deriving Repr, DecidableEq

/-- `LabelMap.map_pd_index(pdobj, map_from, map_to, axis='index', level,
raise_on_missing, inplace)` (lines 304-405), for a single-level index (the
model has no `MultiIndex`, so a non-`None` `level` raises `TypeError`, as in
the source).  The first component is the call's result; the second is the
state of the *caller's* object after the call.  The source reads
`if inplace: pdobj = pdobj.copy(deep=False)` — the local name is rebound to
a shallow copy when `inplace` is *true*, and `setattr(pdobj, axis, …)` then
mutates whatever object the local name refers to: the copy when `inplace`
is true, the caller's object when `inplace` is false. -/
def mapPdIndexFull (lm : LabelMapM) (pdobj : PdFrame) (mapFrom mapTo : String)
    (level : Option Nat) (raiseOnMissing inplace : Bool) :
    Except PdErr PdFrame × PdFrame :=
  match level with
  | some _ => (.error .typeError, pdobj)
  | none =>
    match mapPd lm pdobj.index mapFrom mapTo raiseOnMissing with
    | .error e => (.error e, pdobj)
    | .ok mappedIdx =>
      let result : PdFrame := { pdobj with index := mappedIdx }
      (.ok result, if inplace then pdobj else result)

/-- The reserved metadata keys of `LabelMap.from_yaml`
(`LabelMap._yaml_meta_keys`). -/
def yamlMetaKeys : List String :=
  ["code_type", "orient", "columns", "ordered", "parent", "parent_file",
   "hierarchy_level", "data"]

/-- How `LabelMap.from_yaml` splits the parsed top-level structure: whether
the metadata-prefixed branch was taken, which substructure is passed on as
the vocabulary table, and the contents of the returned object's `attrs`
bag. -/
structure FromYamlView where
  isMetaPrefixed : Bool
  tableSource : Yaml
  attrs : List (String × Yaml)
deriving Repr

/-- The branch decision of `LabelMap.from_yaml` (lines 218-241):
`set(_def.keys()).issubset(cls._yaml_meta_keys) and 'data' in _def.keys()`
selects the metadata-prefixed form, whose `data` entry becomes the
vocabulary table and whose other entries become `attrs` items unless
`read_attrs` is false (`attrs=None` makes `__init__` install an empty
dict); otherwise the whole structure is the flat form (and `__init__`'s
default `attrs` is the empty dict). -/
def fromYamlView (d : List (String × Yaml)) (readAttrs : Bool) : FromYamlView :=
  if (d.map Prod.fst).all (fun k => yamlMetaKeys.contains k)
      && (d.map Prod.fst).contains "data" then
    { isMetaPrefixed := true
      tableSource := (lookupKey d "data").getD (.map [])
      attrs := if readAttrs then d.filter (fun kv => kv.1 != "data") else [] }
  else
    { isMetaPrefixed := false
      tableSource := .map d
      attrs := [] }

/-!
## `PandasDataLoader.process_raw_df` (`src/cmdata/dataproc/data_loading.py`)

A DataFrame is modelled as row labels (`index`, each label a list of level
values — the default positional `RangeIndex` labels are the singletons
`[i]`) plus named columns.  Dtype targets are modelled by their conversion
functions (`astype` applies the conversion to the mapped columns and leaves
the rest untouched; a dtype key that is not a column raises `KeyError`).
The `_df.copy(deep=False)` defragmentation step after each column's
adjustment list has no effect on the table's value and is the identity
here.
-/

/-- A cell or index-level value of a loader table. -/
inductive Val where
  | i : Int → Val
  | s : String → Val
deriving Repr, DecidableEq

/-- Errors raised by the processing stages (pandas `KeyError` on a missing
column). -/
inductive LoadErr where
  | keyError : LoadErr
deriving Repr, DecidableEq

/-- A pandas DataFrame for the loader pipeline: row labels and named
columns. -/
structure Df where
  index : List (List Val)
  cols : List (String × List Val)
deriving Repr, DecidableEq

/-- The default positional row labels `0..n-1` of a freshly read
DataFrame. -/
def defaultRangeLabels (n : Nat) : List (List Val) :=
  (List.range n).map (fun k => [Val.i k])

/-- `df[c]` column read: `KeyError` when absent. -/
def getDfCol (df : Df) (c : String) : Except LoadErr (List Val) :=
  match df.cols.find? (fun p => p.1 == c) with
  | some p => .ok p.2
  | none => .error .keyError

/-- `df[c] = vs` column write: replaces an existing column (all entries with
that name), else appends a new one. -/
def setDfCol (df : Df) (c : String) (vs : List Val) : Df :=
  if df.cols.any (fun p => p.1 == c) then
    { df with cols := df.cols.map (fun p => if p.1 == c then (c, vs) else p) }
  else
    { df with cols := df.cols ++ [(c, vs)] }

/-- The per-column action of `astype` under a column→dtype mapping: convert
a mapped column, pass an unmapped column through unchanged. -/
def astypeConv (dtypes : List (String × (Val → Val))) (cc : String × List Val) :
    String × List Val :=
  match dtypes.find? (fun p => p.1 == cc.1) with
  | some p => (cc.1, cc.2.map p.2)
  | none => cc

/-- `raw_data.astype(dtypes)` with a column→dtype mapping: mapped columns are
converted, unmapped columns pass through unchanged, and a mapping key that
is not a column of the frame raises `KeyError`. -/
def astypeDf (df : Df) (dtypes : List (String × (Val → Val))) : Except LoadErr Df :=
  if dtypes.all (fun p => df.cols.any (fun c => c.1 == p.1)) then
    .ok { df with cols := df.cols.map (astypeConv dtypes) }
  else .error .keyError

/-- A left-to-right pass over an ordered list of whole-table adjustments
(`for _global_adjustment in …: _df = _global_adjustment(_df)`). -/
def applyGlobals (gs : List (Df → Df)) (df : Df) : Df :=
  gs.foldl (fun d g => g d) df

/-- One column's adjustment list, applied in order
(`for _col_adjustment in _col_adjustments: _df[_colname] = _col_adjustment(_df[_colname])`). -/
def applyOneColAdj (df : Df) (c : String) : List (List Val → List Val) → Except LoadErr Df
  | [] => .ok df
  | f :: rest => do
    let vs ← getDfCol df c
    applyOneColAdj (setDfCol df c (f vs)) c rest

/-- The `for _colname, _col_adjustments in column_adjustments.items()` loop;
after each column `_df = _df.copy(deep=False)` (defragmentation, the
identity on the value). -/
def applyColAdjs (df : Df) : List (String × List (List Val → List Val)) → Except LoadErr Df
  | [] => .ok df
  | (c, fs) :: rest => do
    let df' ← applyOneColAdj df c fs
    applyColAdjs df' rest

/-- `_df.set_index(index_cols)` for a non-empty column list: the chosen
columns become the row labels (in list order) and leave the column set;
a missing column raises `KeyError`.  Well-formed tables have every column
as long as the index, so the `getD` default is never consulted. -/
def setIndexCols (df : Df) (cols : List String) : Except LoadErr Df :=
  if cols.all (fun c => df.cols.any (fun p => p.1 == c)) then
    .ok { index := (List.range df.index.length).map (fun r =>
            cols.map (fun c =>
              (((df.cols.find? (fun p => p.1 == c)).map Prod.snd).getD []).getD r (.i 0)))
          cols := df.cols.filter (fun p => !(cols.contains p.1)) }
  else .error .keyError

/-- The adjustment configuration a `PandasDataLoader` instance carries
(`source_data_dtypes`, `global_preadjustments`, `column_adjustments` — each
value already normalised to a list by `__init__` — ,
`global_postadjustments`, `data_index_cols`). -/
structure LoaderCfg where
  source_data_dtypes : List (String × (Val → Val))
  global_preadjustments : List (Df → Df)
  column_adjustments : List (String × List (List Val → List Val))
  global_postadjustments : List (Df → Df)
  data_index_cols : List String

/-- `PandasDataLoader.process_raw_df(raw_data, caller, data_config)`
(lines 592-626): dtype coercion, global pre-adjustments, per-column
adjustment lists, global post-adjustments, then `set_index` — skipped when
the configured index-column list is empty (`if index_cols:`). -/
def processRawDf (caller : LoaderCfg) (raw : Df) : Except LoadErr Df := do
  let df1 ← astypeDf raw caller.source_data_dtypes
  let df2 := applyGlobals caller.global_preadjustments df1
  let df3 ← applyColAdjs df2 caller.column_adjustments
  let df4 := applyGlobals caller.global_postadjustments df3
  if caller.data_index_cols.isEmpty then .ok df4
  else setIndexCols df4 caller.data_index_cols

/-!
## `ConfigParserListMixin` (`src/cmdata/dataproc/configparsers.py`)

The parser instance is modelled by the two optional instance attributes
behind the `list_separator` / `strip_items` properties (absent until
assigned: `__init__` only assigns them when the corresponding argument is
not `None`) and the section/option store.  Reading a missing instance
attribute in Python raises `AttributeError`; the property getters guard the
read with `except NameError`, which does not match `AttributeError`, so the
lazy-default branch is unreachable and the exception propagates.
-/

/-- Exceptions from the config-parser paths. -/
inductive CfgErr where
  | attributeError : CfgErr
  | noSectionError : CfgErr
  | noOptionError : CfgErr
deriving Repr, DecidableEq

/-- A `ConfigParserListMixin` instance: the two backing attributes (absent
when never assigned) and the parsed sections. -/
structure ListMixin where
  listSeparatorAttr : Option String
  stripItemsAttr : Option Bool
  sections : List (String × List (String × String))
deriving Repr, DecidableEq

/-- The `list_separator` property getter (lines 81-88): return the backing
attribute; when it was never assigned the attribute read raises
`AttributeError`, which the `except NameError` clause does not catch, so
the getter propagates the exception (the assignment of
`DEFAULT_LIST_SEPARATOR` is unreachable). -/
def listSeparatorProp (st : ListMixin) : Except CfgErr String :=
  match st.listSeparatorAttr with
  | some s => .ok s
  | none => .error .attributeError

/-- The `strip_items` property getter (lines 99-106), same structure as
`list_separator`. -/
def stripItemsProp (st : ListMixin) : Except CfgErr Bool :=
  match st.stripItemsAttr with
  | some b => .ok b
  | none => .error .attributeError

/-- `ConfigParser.get(section, option)`. -/
def cfgGet (st : ListMixin) (sectionName optionName : String) : Except CfgErr String :=
  match st.sections.find? (fun p => p.1 == sectionName) with
  | none => .error .noSectionError
  | some sec =>
    match sec.2.find? (fun p => p.1 == optionName) with
    | none => .error .noOptionError
    | some p => .ok p.2

/-- Python whitespace for `str.strip()` (the characters that occur in the
modelled values). -/
def isPySpace (c : Char) : Bool :=
  c = ' ' || c = '\t' || c = '\n' || c = '\r'

/-- `str.strip()`. -/
def pyStrip (s : String) : String :=
  String.mk (((s.data.dropWhile isPySpace).reverse.dropWhile isPySpace).reverse)

/-- `str.split(sep)` for a non-empty separator string: split on each exact
occurrence of `sep`, keeping empty segments. -/
def splitOnSub (sep : List Char) : List Char → List (List Char)
  | [] => [[]]
  | c :: rest =>
    if hp : sep ≠ [] ∧ sep.isPrefixOf (c :: rest) then
      [] :: splitOnSub sep ((c :: rest).drop sep.length)
    else
      match splitOnSub sep rest with
      | [] => [[c]]
      | g :: gs => (c :: g) :: gs
  termination_by cs => cs.length
  decreasing_by
    · simp only [List.length_drop, List.length_cons]
      have h1 : 1 ≤ sep.length := by
        cases hs : sep
        · exact absurd hs hp.1
        · simp
      omega
    · simp

/-- `ConfigParserListMixin.getlist(section, option, list_separator,
strip_items)` with the default `item_type=str` (lines 117-174): resolve the
separator and strip flag (falling back to the properties when the arguments
are `None`), read the option, strip the whole value, split, and strip each
item. -/
def getlist (st : ListMixin) (sectionName optionName : String)
    (listSeparator : Option String) (stripItems : Option Bool) :
    Except CfgErr (List String) := do
  let sep ← match listSeparator with
    | some s => pure s
    | none => listSeparatorProp st
  let strip ← match stripItems with
    | some b => pure b
    | none => stripItemsProp st
  let v ← cfgGet st sectionName optionName
  let v := if strip then pyStrip v else v
  let items := (splitOnSub sep.data v.data).map (fun g => String.mk g)
  .ok (if strip then items.map pyStrip else items)

/-- The vocabulary of the round-trip example:
`LabelMap({"X": {"name": "Ex"}, "Y": {"name": "Why"}}, orient='index')`. -/
def labelMapXY : LabelMapM :=
  labelMapFromDictByCode [("X", [("name", .s "Ex")]), ("Y", [("name", .s "Why")])]

/-- A concrete caller configuration for exercising `process_raw_df`:
one dtype conversion (column `"a"` rendered as strings), no global
adjustments, a two-step adjustment list on column `"b"`, and an empty
index-column list. -/
def c6Caller : LoaderCfg :=
  { source_data_dtypes :=
      [("a", fun v => match v with | .i n => .s (toString n) | v => v)]
    global_preadjustments := []
    column_adjustments :=
      [("b", [fun vs => vs.map (fun v => match v with | .i n => .i (n + 1) | v => v),
              fun vs => vs.reverse])]
    global_postadjustments := []
    data_index_cols := [] }

/-- A concrete two-row raw table with the default positional labels. -/
def c6Raw : Df :=
  { index := defaultRangeLabels 2
    cols := [("a", [.i 1, .i 2]), ("b", [.i 10, .i 20])] }

/-- C3: `map_pd` from the code axis does not implement the claimed
missing-value policy.  With the default `raise_on_missing=True` the mapper
for an index-alias `map_from` is a `Series`, so `mapper.iloc[:, 0]` raises
`IndexingError` before any value is looked at — both for `["X","Z"]`
(where the claim predicts `KeyError`) and for the all-present `["X","Y"]`
(where the claim predicts success, refuting the claimed "if and only if").
With `raise_on_missing=False` the mapper is `mapping_df.reset_index()[map_to]`,
whose index is the positional `RangeIndex`, so *every* string input maps to
`NA` — `["X","Z"]` yields `[NA, NA]`, not `["Ex", NA]`. -/
theorem mapPd_c3_missing_policy_broken :
    mapPd labelMapXY [.s "X", .s "Z"] "index" "name" true = .error .indexingError
    ∧ mapPd labelMapXY [.s "X", .s "Y"] "index" "name" true = .error .indexingError
    ∧ mapPd labelMapXY [.s "X", .s "Z"] "index" "name" false = .ok [.na, .na] := by
  exact ⟨rfl, rfl, rfl⟩

/-- C4: the round trip is broken in its first leg: mapping `["X","Y"]` from
the code axis to `"name"` with the default `raise_on_missing=True` raises
`IndexingError` (`Series.iloc[:, 0]` on the Series mapper) instead of
returning `["Ex","Why"]`.  The reverse leg (`"name"` back to the code axis),
whose mapper is a one-column DataFrame, does work. -/
theorem mapPd_c4_round_trip_broken :
    mapPd labelMapXY [.s "X", .s "Y"] "index" "name" true = .error .indexingError
    ∧ mapPd labelMapXY [.s "Ex", .s "Why"] "name" "index" true
        = .ok [.s "X", .s "Y"] := by
  exact ⟨rfl, rfl⟩

/-- C10: `map_pd_index`'s `inplace` handling is inverted.  The source copies
`pdobj` when `inplace` is *true* (`if inplace: pdobj = pdobj.copy(deep=False)`)
and otherwise assigns the mapped index straight onto the caller's object: with
the default `inplace=False` the caller's Series ends up with the mapped index
`["X","Y"]` (it is mutated), while with `inplace=True` the caller's Series
keeps `["Ex","Why"]` and only the returned copy carries the mapping. -/
theorem mapPdIndex_c10_inplace_inverted :
    (mapPdIndexFull labelMapXY ⟨[.s "Ex", .s "Why"], [.i 1, .i 2]⟩
        "name" "index" none true false).2
      = ⟨[.s "X", .s "Y"], [.i 1, .i 2]⟩
    ∧ (⟨[.s "Ex", .s "Why"], [.i 1, .i 2]⟩ : PdFrame)
        ≠ ⟨[.s "X", .s "Y"], [.i 1, .i 2]⟩
    ∧ (mapPdIndexFull labelMapXY ⟨[.s "Ex", .s "Why"], [.i 1, .i 2]⟩
        "name" "index" none true true).2
      = ⟨[.s "Ex", .s "Why"], [.i 1, .i 2]⟩
    ∧ (mapPdIndexFull labelMapXY ⟨[.s "Ex", .s "Why"], [.i 1, .i 2]⟩
        "name" "index" none true true).1
      = .ok ⟨[.s "X", .s "Y"], [.i 1, .i 2]⟩ := by
  exact ⟨rfl, by decide, rfl, rfl⟩

/-- C5: the branch decision of `from_yaml` is exactly "the key set is a
subset of the metadata allow-list and contains `data`"; in the
metadata-prefixed case the `data` entry becomes the vocabulary table and,
unless `read_attrs` is false, exactly the non-`data` top-level entries end
up in the `attrs` bag; otherwise the whole structure is the flat form. -/
theorem fromYamlView_c5_disambiguation (d : List (String × Yaml)) (readAttrs : Bool) :
    ((fromYamlView d readAttrs).isMetaPrefixed = true
      ↔ ((∀ k ∈ d.map Prod.fst, k ∈ yamlMetaKeys) ∧ "data" ∈ d.map Prod.fst))
    ∧ ((fromYamlView d readAttrs).isMetaPrefixed = true →
        ∀ v, lookupKey d "data" = some v →
          (fromYamlView d readAttrs).tableSource = v)
    ∧ ((fromYamlView d readAttrs).isMetaPrefixed = false →
        (fromYamlView d readAttrs).tableSource = .map d)
    ∧ (readAttrs = true → ∀ k v,
        ((k, v) ∈ (fromYamlView d readAttrs).attrs ↔
          ((fromYamlView d readAttrs).isMetaPrefixed = true
            ∧ (k, v) ∈ d ∧ k ≠ "data")))
    ∧ (readAttrs = false → (fromYamlView d readAttrs).attrs = []) := by
  have hkey : (((d.map Prod.fst).all (fun k => yamlMetaKeys.contains k))
        && (d.map Prod.fst).contains "data") = true
      ↔ ((∀ k ∈ d.map Prod.fst, k ∈ yamlMetaKeys) ∧ "data" ∈ d.map Prod.fst) := by
    simp
  unfold fromYamlView
  by_cases hc : ((d.map Prod.fst).all (fun k => yamlMetaKeys.contains k)
      && (d.map Prod.fst).contains "data") = true
  · rw [if_pos hc]
    refine ⟨⟨fun _ => hkey.mp hc, fun _ => rfl⟩, ?_, by simp, ?_, ?_⟩
    · intro _ v hv
      simp [hv]
    · intro hra k v
      subst hra
      simp [List.mem_filter]
    · intro hra
      subst hra
      simp
  · rw [if_neg hc]
    refine ⟨⟨fun h => absurd h (by simp), fun hp => absurd (hkey.mpr hp) hc⟩,
      fun h => absurd h (by simp), fun _ => rfl, ?_, fun _ => rfl⟩
    intro hra k v
    simp

mutual

theorem deepcopy_eq : ∀ y, deepcopy y = y
  | .str _ => by rw [deepcopy]
  | .int _ => by rw [deepcopy]
  | .map es => by rw [deepcopy, deepcopyEntries_eq es]
  | .seq xs => by rw [deepcopy, deepcopyItems_eq xs]

theorem deepcopyEntries_eq : ∀ es, deepcopyEntries es = es
  | [] => by rw [deepcopyEntries]
  | (k, v) :: rest => by rw [deepcopyEntries, deepcopy_eq v, deepcopyEntries_eq rest]

theorem deepcopyItems_eq : ∀ xs, deepcopyItems xs = xs
  | [] => by rw [deepcopyItems]
  | v :: rest => by rw [deepcopyItems, deepcopy_eq v, deepcopyItems_eq rest]

end

/-- C1: the tree returned by `resolve_variables` is claimed to be a fixed
point of the substitution pass.  It is not: on
`{"a": "${b}", "b": "${c/d}", "c": {"d": "y"}}` the first pass substitutes
`a` and `b`, but the recursive call on the container `c` *reassigns*
`made_substitutions` to `False`, so the loop stops after a single pass and
returns with `a = "${c/d}"` — a string that one further application of
`substitute_var` against the returned tree would change to `"y"`. -/
theorem resolveVariables_c1_not_fixed_point :
    resolveVariables
        (Yaml.map [("a", .str "${b}"), ("b", .str "${c/d}"),
          ("c", .map [("d", .str "y")])]) defaultMaxIterations
      = .ok (Yaml.map [("a", .str "${c/d}"), ("b", .str "y"),
          ("c", .map [("d", .str "y")])])
    ∧ substituteVar "${c/d}"
        (Yaml.map [("a", .str "${c/d}"), ("b", .str "y"),
          ("c", .map [("d", .str "y")])])
      = .ok "y"
    ∧ ("y" : String) ≠ "${c/d}" := by
  refine ⟨?_, ?_, by decide⟩ <;>
    simp [resolveVariables, resolveVariablesFull, resolveLoop, crawlPass, crawlCont,
      crawlMapEntries, crawlSeqItems, deepcopy, deepcopyEntries, deepcopyItems,
      defaultMaxIterations, substituteVar, substScan, matchVarGroup, lastCloseBrace,
      getSubstReplacement, walkPath, splitSeps, lookupKey, String.mk, Bind.bind,
      Except.bind, Pure.pure, Except.pure]

/-- C2: on the circular tree `{"a": "${b}", "b": "${a}"}` `resolve_variables`
is claimed to raise `VarResolutionError`.  Instead the first pass rewrites
`a` to `"${a}"` (looking `b` up in the already part-mutated tree), after
which every string substitutes to itself, so the second pass reports no
changes and the call returns normally with the self-referential tree
`{"a": "${a}", "b": "${a}"}`. -/
theorem resolveVariables_c2_cycle_returns_ok :
    resolveVariables (Yaml.map [("a", .str "${b}"), ("b", .str "${a}")])
        defaultMaxIterations
      = .ok (Yaml.map [("a", .str "${a}"), ("b", .str "${a}")]) := by
  simp [resolveVariables, resolveVariablesFull, resolveLoop, crawlPass, crawlCont,
    crawlMapEntries, crawlSeqItems, deepcopy, deepcopyEntries, deepcopyItems,
    defaultMaxIterations, substituteVar, substScan, matchVarGroup, lastCloseBrace,
    getSubstReplacement, walkPath, splitSeps, lookupKey, String.mk, Bind.bind,
    Except.bind, Pure.pure, Except.pure]

/-- C7: `substitute_var`'s path walk subscripts every container with the raw
string segment and splices the looked-up value without converting it to a
string: subscripting a sequence with `"0"` raises `TypeError` (no coercion to
a sequence index), a non-string looked-up value raises `TypeError` inside
`re.sub` (no string form is taken), and only the missing-key behaviour
(`KeyError`, never a silent skip) is as claimed. -/
theorem substituteVar_c7_no_coercion_no_str_form :
    substituteVar "${a/0}" (Yaml.map [("a", .seq [.str "x"])]) = .error .typeError
    ∧ substituteVar "${n}" (Yaml.map [("n", .int 5)]) = .error .typeError
    ∧ substituteVar "${k}" (Yaml.map [("a", .str "x")]) = .error .keyError := by
  refine ⟨?_, ?_, ?_⟩ <;>
    simp [substituteVar, substScan, matchVarGroup, lastCloseBrace, getSubstReplacement,
      walkPath, splitSeps, lookupKey, String.mk, Bind.bind, Except.bind,
      Pure.pure, Except.pure]

/-- C9: with the default `inplace=False`, `resolve_variables` deep-copies the
tree before any substitution, so the caller's tree object is left unchanged
by the call; moreover resolving the deep copy gives the same result as
resolving the caller's object itself would. -/
theorem resolveVariables_c9_default_leaves_input_unchanged
    (data : Yaml) (maxIterations : Nat) :
    (resolveVariablesFull data maxIterations false).2 = data
    ∧ (resolveVariablesFull data maxIterations false).1
        = (resolveVariablesFull data maxIterations true).1 := by
  constructor <;>
    · simp only [resolveVariablesFull, if_true, if_false, Bool.false_eq_true,
        deepcopy_eq data]
      cases data <;> simp

theorem astypeConv_fst (dt : List (String × (Val → Val))) (cc : String × List Val) :
    (astypeConv dt cc).1 = cc.1 := by
  unfold astypeConv
  split <;> rfl

theorem astypeDf_index {df : Df} {dt : List (String × (Val → Val))} {d1 : Df}
    (h : astypeDf df dt = .ok d1) : d1.index = df.index := by
  unfold astypeDf at h
  split at h
  · rw [Except.ok.injEq] at h
    subst h
    rfl
  · exact Except.noConfusion h

/-- Columns without a dtype mapping are passed through `astype`
unchanged. -/
theorem astypeDf_unmapped {df : Df} {dt : List (String × (Val → Val))} {d1 : Df}
    (c : String) (hnone : dt.find? (fun p => p.1 == c) = none)
    (h : astypeDf df dt = .ok d1) : getDfCol d1 c = getDfCol df c := by
  unfold astypeDf at h
  split at h
  · rw [Except.ok.injEq] at h
    subst h
    unfold getDfCol
    have hfind : ∀ cols : List (String × List Val),
        (cols.map (astypeConv dt)).find? (fun p => p.1 == c)
          = cols.find? (fun p => p.1 == c) := by
      intro cols
      induction cols with
      | nil => rfl
      | cons hd tl ih =>
        by_cases hb : (hd.1 == c) = true
        · have he : hd.1 = c := by simpa using hb
          have hghd : astypeConv dt hd = hd := by
            unfold astypeConv
            rw [he, hnone]
          rw [List.map_cons, hghd]
          simp only [List.find?_cons, hb]
        · have hb' : (hd.1 == c) = false := Bool.of_not_eq_true hb
          have hg : ((astypeConv dt hd).1 == c) = false := by
            rw [astypeConv_fst]
            exact hb'
          rw [List.map_cons]
          simp only [List.find?_cons, hg, hb']
          exact ih
    rw [hfind df.cols]
  · exact Except.noConfusion h

theorem setDfCol_index (df : Df) (c : String) (vs : List Val) :
    (setDfCol df c vs).index = df.index := by
  unfold setDfCol
  split <;> rfl

/-- Writing a column that exists makes it readable back. -/
theorem getDfCol_setDfCol {df : Df} {c : String} {vs : List Val} (w : List Val)
    (h : getDfCol df c = .ok vs) : getDfCol (setDfCol df c w) c = .ok w := by
  unfold getDfCol at h
  have hany : df.cols.any (fun p => p.1 == c) = true := by
    rcases hf : df.cols.find? (fun p => p.1 == c) with _ | q
    · rw [hf] at h
      exact Except.noConfusion h
    · have hmem := List.mem_of_find?_eq_some hf
      have hq := List.find?_some hf
      exact List.any_eq_true.mpr ⟨q, hmem, hq⟩
  unfold setDfCol
  rw [if_pos hany]
  unfold getDfCol
  have hmain : ∀ cols : List (String × List Val),
      cols.any (fun p => p.1 == c) = true →
      (cols.map (fun p => if p.1 == c then (c, w) else p)).find? (fun p => p.1 == c)
        = some (c, w) := by
    intro cols
    induction cols with
    | nil => intro hx; exact Bool.noConfusion hx
    | cons hd tl ih =>
      intro hx
      by_cases hb : (hd.1 == c) = true
      · have hcc : ((c, w).1 == c) = true := by simp
        rw [List.map_cons, if_pos hb]
        simp only [List.find?_cons, hcc]
      · have hb' : (hd.1 == c) = false := Bool.of_not_eq_true hb
        rw [List.map_cons, if_neg hb]
        simp only [List.find?_cons, hb']
        apply ih
        simp only [List.any_cons, hb', Bool.false_or] at hx
        exact hx
  rw [hmain df.cols hany]

theorem applyOneColAdj_index {c : String} :
    ∀ (fs : List (List Val → List Val)) (df d' : Df),
      applyOneColAdj df c fs = .ok d' → d'.index = df.index
  | [], df, d', h => by
    unfold applyOneColAdj at h
    rw [Except.ok.injEq] at h
    rw [h]
  | f :: rest, df, d', h => by
    unfold applyOneColAdj at h
    rcases hg : getDfCol df c with e | vs
    · rw [hg] at h
      exact Except.noConfusion h
    · rw [hg] at h
      have := applyOneColAdj_index rest (setDfCol df c (f vs)) d' h
      rw [this, setDfCol_index]

theorem applyColAdjs_index :
    ∀ (adjs : List (String × List (List Val → List Val))) (df d' : Df),
      applyColAdjs df adjs = .ok d' → d'.index = df.index
  | [], df, d', h => by
    unfold applyColAdjs at h
    rw [Except.ok.injEq] at h
    rw [h]
  | (c, fs) :: rest, df, d', h => by
    unfold applyColAdjs at h
    rcases ha : applyOneColAdj df c fs with e | df1
    · rw [ha] at h
      exact Except.noConfusion h
    · rw [ha] at h
      have h1 := applyOneColAdj_index fs df df1 ha
      have h2 := applyColAdjs_index rest df1 d' h
      rw [h2, h1]

theorem applyGlobals_index :
    ∀ (gs : List (Df → Df)), (∀ g ∈ gs, ∀ x, (g x).index = x.index) →
      ∀ df : Df, (applyGlobals gs df).index = df.index
  | [], _, df => rfl
  | g :: rest, h, df => by
    have hg := h g (List.mem_cons_self g rest)
    have hrest := applyGlobals_index rest (fun f hf x => h f (List.mem_cons_of_mem g hf) x) (g df)
    unfold applyGlobals at hrest ⊢
    simp only [List.foldl_cons]
    rw [hrest, hg]

/-- One column's adjustments are applied in list order, the composite result
replacing the column. -/
theorem applyOneColAdj_fold {c : String} :
    ∀ (fs : List (List Val → List Val)) (df : Df) (vs : List Val),
      getDfCol df c = .ok vs →
      ∃ d', applyOneColAdj df c fs = .ok d'
        ∧ getDfCol d' c = .ok (fs.foldl (fun a f => f a) vs)
  | [], df, vs, h => ⟨df, by unfold applyOneColAdj; rfl, h⟩
  | f :: rest, df, vs, h => by
    rcases applyOneColAdj_fold rest (setDfCol df c (f vs)) (f vs)
        (getDfCol_setDfCol (f vs) h) with ⟨d', hd', hcol⟩
    refine ⟨d', ?_, ?_⟩
    · unfold applyOneColAdj
      rw [h]
      exact hd'
    · simpa using hcol

/-- C6: `process_raw_df` runs its stages in the fixed order
dtype coercion → global pre-adjustments (left to right) → per-column
adjustment lists (each column's transforms in list order, the result
replacing the column) → global post-adjustments → indexing; dtype coercion
leaves unmapped columns unchanged; and an empty configured index-column
list makes the indexing step a no-op, so (for index-preserving global
adjustments) the output keeps the input's row labels — in particular the
default positional labels `0..n-1` — and row count. -/
theorem processRawDf_c6_stage_order (caller : LoaderCfg) (raw : Df) :
    (processRawDf caller raw
      = (astypeDf raw caller.source_data_dtypes).bind (fun d1 =>
          (applyColAdjs (applyGlobals caller.global_preadjustments d1)
              caller.column_adjustments).bind (fun d3 =>
            if caller.data_index_cols.isEmpty then
              .ok (applyGlobals caller.global_postadjustments d3)
            else
              setIndexCols (applyGlobals caller.global_postadjustments d3)
                caller.data_index_cols)))
    ∧ (∀ c d1, caller.source_data_dtypes.find? (fun p => p.1 == c) = none →
        astypeDf raw caller.source_data_dtypes = .ok d1 →
        getDfCol d1 c = getDfCol raw c)
    ∧ (∀ (c : String) (fs : List (List Val → List Val)) (df : Df) (vs : List Val),
        getDfCol df c = .ok vs →
        ∃ d', applyOneColAdj df c fs = .ok d'
          ∧ getDfCol d' c = .ok (fs.foldl (fun a f => f a) vs))
    ∧ (caller.data_index_cols = [] →
        (∀ g ∈ caller.global_preadjustments, ∀ x : Df, (g x).index = x.index) →
        (∀ g ∈ caller.global_postadjustments, ∀ x : Df, (g x).index = x.index) →
        ∀ d, processRawDf caller raw = .ok d →
          d.index = raw.index ∧ d.index.length = raw.index.length) := by
  refine ⟨rfl, ?_, ?_, ?_⟩
  · intro c d1 hnone hok
    exact astypeDf_unmapped c hnone hok
  · intro c fs df vs h
    exact applyOneColAdj_fold fs df vs h
  · intro hics hpre hpost d hok
    unfold processRawDf at hok
    rcases hast : astypeDf raw caller.source_data_dtypes with e | d1
    · rw [hast] at hok
      exact Except.noConfusion hok
    · rw [hast] at hok
      simp only [bind, Except.bind] at hok
      rcases hca : applyColAdjs (applyGlobals caller.global_preadjustments d1)
          caller.column_adjustments with e | d3
      · rw [hca] at hok
        exact Except.noConfusion hok
      · rw [hca] at hok
        rw [hics] at hok
        simp only [List.isEmpty_nil, if_true] at hok
        rw [Except.ok.injEq] at hok
        subst hok
        constructor
        · rw [applyGlobals_index caller.global_postadjustments hpost d3,
            applyColAdjs_index caller.column_adjustments _ d3 hca,
            applyGlobals_index caller.global_preadjustments hpre d1,
            astypeDf_index hast]
        · rw [applyGlobals_index caller.global_postadjustments hpost d3,
            applyColAdjs_index caller.column_adjustments _ d3 hca,
            applyGlobals_index caller.global_preadjustments hpre d1,
            astypeDf_index hast]

/-- C8: a `ConfigParserListMixin` built without an explicit `list_separator`
or `strip_items` cannot `getlist` at all: the property getters read a
backing attribute that was never assigned, the raised `AttributeError` is
not caught by the `except NameError` clause, and the exception propagates
out of `getlist`.  Only when the separator and strip flag were assigned
(e.g. passed to `__init__`) does `getlist` return the whitespace-stripped
items of the newline-separated value. -/
theorem getlist_c8_default_raises_attribute_error :
    getlist ⟨none, none, [("sec", [("opt", "\n a\n b")])]⟩ "sec" "opt" none none
      = .error .attributeError
    ∧ getlist ⟨some "\n", some true, [("sec", [("opt", "\n a\n b")])]⟩
        "sec" "opt" none none
      = .ok ["a", "b"] := by
  constructor
  · rfl
  · simp [getlist, listSeparatorProp, stripItemsProp, cfgGet, pyStrip, isPySpace,
      splitOnSub, Bind.bind, Except.bind, Pure.pure, Except.pure, String.mk]

/-- Witness for C6 at a concrete caller and table: processing succeeds, the
column adjustments are applied in order (`b`: increment then reverse), the
unmapped column was coerced only where mapped, and with the empty
index-column list the output keeps the default positional labels `0..1`. -/
theorem processRawDf_c6_witness :
    processRawDf c6Caller c6Raw
        = .ok { index := defaultRangeLabels 2
                cols := [("a", [.s "1", .s "2"]), ("b", [.i 21, .i 11])] }
    ∧ (Df.index { index := defaultRangeLabels 2
                  cols := [("a", [.s "1", .s "2"]), ("b", [.i 21, .i 11])] })
        = c6Raw.index := by
  constructor
  · rfl
  · exact ((processRawDf_c6_stage_order c6Caller c6Raw).2.2.2 rfl
      (by intro g hg; cases hg) (by intro g hg; cases hg)
      _ (by rfl)).1

end Cmdata
